import Mathlib

/-!
A shallow embedding of the routerify HTTP router core, with theorems
checking the natural-language specification against the code.
Definitions first (translated from the source), then the theorems.
-/

namespace Routerify

/-- Strings are modelled as lists of characters. -/
abbrev Str := List Char

/-- Coerce a Lean string literal into the model's string type. -/
def str (s : String) : Str := s.data

/-! ## Path-pattern compiler (`src/regex_generator/mod.rs`)

The compiler turns a route-path pattern into a regex string.  Every regex the
router ever builds has the shape produced here: a sequence of escaped literal
characters, `([^/]+)` groups and `(.*)` groups, wrapped in `(?s)^…$` (exact) or
`(?s)^…` (prefix).  We model such a regex as a token list and give it a direct
matching semantics; `renderCommon` recovers the exact string the source builds,
so the token list and the source's string are in 1-1 correspondence. -/

/-- One token of a generated regex body: an (escaped) literal character, a
`([^/]+)` group produced from `:name`, or a `(.*)` group produced from `*`. -/
inductive Tok where
  | lit (c : Char)
  | nonSlashGroup
  | starGroup
  deriving DecidableEq, Repr

/-- The characters `regex::escape` prefixes with a backslash
(`regex_syntax::is_meta_character`). -/
def isMetaChar (c : Char) : Bool :=
  c = '\\' || c = '.' || c = '+' || c = '*' || c = '?' || c = '(' || c = ')' ||
  c = '|' || c = '[' || c = ']' || c = '\x7b' || c = '\x7d' || c = '^' ||
  c = '$' || c = '#' || c = '&' || c = '-' || c = '~'

/-- Models `regex::escape` on a single character. -/
def escapeChar (c : Char) : Str :=
  if isMetaChar c then ['\\', c] else [c]

/-- Models `regex::escape` on a string. -/
def reEscape (s : Str) : Str := s.flatMap escapeChar

/-- The regex-string rendering of one token: `lit c` renders as the escaped
character, the groups render as the group strings the source appends. -/
def Tok.render : Tok → Str
  | .lit c => escapeChar c
  | .nonSlashGroup => str "([^/]+)"
  | .starGroup => str "(.*)"

/-- Renders a token list to the regex body string built by
`generate_common_regex_str`. -/
def renderToks (ts : List Tok) : Str := ts.flatMap Tok.render

/-- Finds the leftmost match of the scanning regex
`(?s)(?::([^/]+))|(?:\*)` (`PATH_PARAMS_RE`) in the pattern: at each position,
`:` followed by a nonempty run of non-`/` characters matches that whole run
(the `[^/]+` is greedy), and `*` matches itself.  Returns the literal text
before the match, the matched occurrence as a token plus its parameter name,
and the rest of the pattern after the match; `none` when there is no match. -/
def findNextOccurrence : Str → Option (Str × (Tok × Str) × Str)
  | [] => none
  | c :: cs =>
    if c = '*' then
      some ([], (.starGroup, str "*"), cs)
    else if c = ':' then
      let name := cs.takeWhile (fun d => d ≠ '/')
      let rest := cs.dropWhile (fun d => d ≠ '/')
      if name.isEmpty then
        (findNextOccurrence cs).map (fun r => (c :: r.1, r.2.1, r.2.2))
      else
        some ([], (.nonSlashGroup, name), rest)
    else
      (findNextOccurrence cs).map (fun r => (c :: r.1, r.2.1, r.2.2))

/-- Translation of `generate_common_regex_str`, producing the token list and
the parameter-name list.  The source loops over the non-overlapping matches of
`PATH_PARAMS_RE`, escaping the literal text between matches and appending
`([^/]+)` (pushing the name) for a `:name` occurrence or `(.*)` (pushing `*`)
for a `*` occurrence; the trailing literal is escaped and appended last.
The fuel argument bounds the number of loop iterations; every match consumes
at least one character, so `p.length` iterations always suffice
(`findNextOccurrence_rest_lt`). -/
def commonToksFuel : Nat → Str → List Tok × List Str
  | 0, p => (p.map Tok.lit, [])
  | fuel + 1, p =>
    match findNextOccurrence p with
    | none => (p.map Tok.lit, [])
    | some (pre, (tok, name), rest) =>
      let r := commonToksFuel fuel rest
      (pre.map Tok.lit ++ tok :: r.1, name :: r.2)

/-- The scan loop of `generate_common_regex_str` at full fuel. -/
def commonToks (p : Str) : List Tok × List Str := commonToksFuel p.length p

/-- Structural form of the scan loop of `generate_common_regex_str`.  The
second argument is `true` while the scanner is inside the tail of a `:name`
run that has already been emitted as a `([^/]+)` group (the greedy `[^/]+` of
`PATH_PARAMS_RE` consumed it), and `false` otherwise.  `scanAux p false` is
proved equal to the position-loop translation `commonToks` below. -/
def scanAux : Str → Bool → List Tok × List Str
  | [], _ => ([], [])
  | c :: cs, true =>
    if c = '/' then
      let r := scanAux cs false
      (.lit '/' :: r.1, r.2)
    else
      scanAux cs true
  | c :: cs, false =>
    if c = '*' then
      let r := scanAux cs false
      (.starGroup :: r.1, str "*" :: r.2)
    else if c = ':' ∧ ¬(cs.takeWhile (fun d => d ≠ '/')).isEmpty then
      let r := scanAux cs true
      (.nonSlashGroup :: r.1, cs.takeWhile (fun d => d ≠ '/') :: r.2)
    else
      let r := scanAux cs false
      (.lit c :: r.1, r.2)

/-- The token list and parameter names of a compiled path pattern
(computable form of `commonToks`). -/
def commonScan (p : Str) : List Tok × List Str := scanAux p false

/-- The regex body string built by `generate_common_regex_str`. -/
def generate_common_regex_str (p : Str) : Str × List Str :=
  let (ts, names) := commonToks p
  (renderToks ts, names)

/-- The regex string built by `generate_exact_match_regex`:
`"(?s)^" + body + "$"`. -/
def generate_exact_match_regex_str (p : Str) : Str × List Str :=
  let (body, names) := generate_common_regex_str p
  (str "(?s)^" ++ body ++ str "$", names)

/-- The regex string built by `generate_prefix_match_regex`:
`"(?s)^" + body`. -/
def generate_prefix_match_regex_str (p : Str) : Str × List Str :=
  let (body, names) := generate_common_regex_str p
  (str "(?s)^" ++ body, names)

/-- The token list of the exact-match regex of a path (its body; the anchors
`(?s)^…$` are implicit in the exact-match semantics `exactMatchB`). -/
def exactToks (p : Str) : List Tok := (commonToks p).1

/-- The parameter-name list of a compiled path. -/
def paramNames (p : Str) : List Str := (commonToks p).2

/-! ### Matching semantics for generated regexes

`exactMatchB ts s` decides whether the anchored regex `(?s)^ body $` whose body
is rendered from `ts` matches `s` in its entirety: literals match themselves,
`([^/]+)` matches any nonempty run of non-`/` characters and `(.*)` matches any
run of characters (`(?s)` makes `.` match `\n` as well, so no character is
excluded). -/

/-- Decides whether the anchored exact regex with body `ts` matches all of
`s`. -/
def exactMatchB : List Tok → Str → Bool
  | [], s => s.isEmpty
  | .lit c :: ts, s =>
    match s with
    | [] => false
    | c' :: s' => c = c' && exactMatchB ts s'
  | .nonSlashGroup :: ts, s =>
    (List.range s.length).any (fun n =>
      (s.take (n + 1)).all (fun d => d ≠ '/') && exactMatchB ts (s.drop (n + 1)))
  | .starGroup :: ts, s =>
    (List.range (s.length + 1)).any (fun n => exactMatchB ts (s.drop n))

/-- The capture groups of the anchored exact regex with body `ts` on `s`,
in the backtracking order of the regex engine (greedy groups prefer the
longest alternative first); `none` when the regex does not match. -/
def capturesOf : List Tok → Str → Option (List Str)
  | [], s => if s.isEmpty then some [] else none
  | .lit c :: ts, s =>
    match s with
    | [] => none
    | c' :: s' => if c = c' then capturesOf ts s' else none
  | .nonSlashGroup :: ts, s =>
    (List.range s.length).reverse.findSome? (fun n =>
      let g := s.take (n + 1)
      if g.all (fun d => d ≠ '/') then
        (capturesOf ts (s.drop (n + 1))).map (fun gs => g :: gs)
      else none)
  | .starGroup :: ts, s =>
    (List.range (s.length + 1)).reverse.findSome? (fun n =>
      (capturesOf ts (s.drop n)).map (fun gs => s.take n :: gs))

/-! ### Claim-side description of the compiler (C3)

The claim describes the compiler as a single left-to-right scan: at a `:name`
occurrence emit `([^/]+)` and push the name, at a `*` emit `(.*)` and push
`*`, and regex-escape every other character.  `specCommonRegexStr` is that
description written directly; the refinement theorem for C3 proves it equal to
the translation of the source's match-position loop. -/

/-- The claim's description of `generate_common_regex_str`: a direct scan
replacing `:name` occurrences (a `:` followed by a nonempty greedy run of
non-`/` characters) by `([^/]+)`, `*` by `(.*)`, and escaping the literal
characters in between. -/
def specCommonRegexStr : Str → Str × List Str
  | [] => ([], [])
  | c :: cs =>
    if c = '*' then
      let r := specCommonRegexStr cs
      (str "(.*)" ++ r.1, str "*" :: r.2)
    else if c = ':' ∧ ¬(cs.takeWhile (fun d => d ≠ '/')).isEmpty then
      let name := cs.takeWhile (fun d => d ≠ '/')
      let r := specCommonRegexStr (cs.dropWhile (fun d => d ≠ '/'))
      (str "([^/]+)" ++ r.1, name :: r.2)
    else
      let r := specCommonRegexStr cs
      (escapeChar c ++ r.1, r.2)
termination_by p => p.length
decreasing_by
  · simp
  · have hle : (cs.dropWhile (fun d => d ≠ '/')).length ≤ cs.length :=
      (List.dropWhile_suffix _).length_le
    simp only [List.length_cons]
    omega
  · simp

/-! ## Route-parameter extraction (`src/route/mod.rs`, `Route::process_route_req`)

`RouteParams` (`PathParams`) is a string-keyed map; `set` overwrites. -/

/-- `RouteParams::set` / `PathParams::set`: insert or overwrite one route
parameter. -/
def paramsSet (m : List (Str × Str)) (k v : Str) : List (Str × Str) :=
  if m.any (fun e => e.1 = k) then
    m.map (fun e => if e.1 = k then (k, v) else e)
  else
    m ++ [(k, v)]

/-- `RouteParams::get`: look up one route parameter. -/
def paramsGet (m : List (Str × Str)) (k : Str) : Option Str :=
  (m.find? (fun e => e.1 = k)).map (fun e => e.2)

/-- Models the parameter extraction of `Route::process_route_req`: the code
zips `0..ln` (`ln` = length of the parameter-name list) with the successive
non-overlapping matches of the route's exact regex on the target path
(`self.regex.captures_iter(target_path)`) and, for each pair
`(idx, caps)`, stores the WHOLE match `caps.get(0)` under the `idx`-th
parameter name.  The exact regex is anchored `(?s)^…$`, so it has at most one
match in the haystack — the full target path when the regex matches — and the
fold therefore runs at most once. -/
def process_route_req_params (p : Str) (target : Str) : List (Str × Str) :=
  let path_params_list := paramNames p
  let ln := path_params_list.length
  if ln > 0 then
    let capturesList : List Str :=
      if exactMatchB (exactToks p) target then [target] else []
    ((List.range ln).zip capturesList).foldl
      (fun acc pair => paramsSet acc (path_params_list.getD pair.1 []) pair.2) []
  else
    []

/-- Modelled from the spec: "run the route's exact regex on the target path,
zip capture groups with the parameter-name list into RouteParams". -/
def specRouteParams (p : Str) (target : Str) : List (Str × Str) :=
  match capturesOf (exactToks p) target with
  | none => []
  | some groups =>
    ((paramNames p).zip groups).foldl (fun acc pair => paramsSet acc pair.1 pair.2) []

/-! ## Router data model (`src/router/mod.rs`, `src/middleware/*`, `src/route/mod.rs`,
`src/data_map/scoped.rs`)

Requests, responses and errors are modelled concretely: a request carries its
method plus an opaque list of marks (so model handlers can transform requests
observably), a response carries status, headers and body, and a `RouteError`
is modelled by its display text.  `RequestInfo` carries no observable data in
any claim, so it is a unit. -/

/-- The HTTP methods (`hyper::Method`). -/
inductive Method where
  | GET | POST | PUT | PATCH | DELETE | CONNECT | HEAD | OPTIONS | TRACE
  deriving DecidableEq, Repr

/-- `constants::ALL_POSSIBLE_HTTP_METHODS`, in the source's order. -/
def ALL_POSSIBLE_HTTP_METHODS : List Method :=
  [.GET, .POST, .PUT, .PATCH, .DELETE, .CONNECT, .HEAD, .OPTIONS, .TRACE]

/-- `constants::HEADER_NAME_X_POWERED_BY`. -/
def HEADER_NAME_X_POWERED_BY : Str := str "x-powered-by"

/-- `constants::HEADER_VALUE_X_POWERED_BY`:
`concat!("Routerify v", env!("CARGO_PKG_VERSION"))`.  The crate version comes
from the Cargo manifest, so it is kept as a parameter. -/
def HEADER_VALUE_X_POWERED_BY (version : Str) : Str := str "Routerify v" ++ version

/-- A request: its method plus an opaque payload. -/
structure Request where
  method : Method
  marks : List Str
  deriving DecidableEq, Repr

/-- A response: status, headers, body. -/
structure Response where
  status : Nat
  headers : List (Str × Str)
  body : Str
  deriving DecidableEq, Repr

/-- `hyper::HeaderMap::insert`: sets the value of a header name, replacing any
previous value. -/
def insertHeader (name value : Str) (res : Response) : Response :=
  { res with headers := (name, value) :: res.headers.filter (fun h => h.1 ≠ name) }

/-- `RouteError` (a boxed error), modelled by its display text. -/
abbrev Err := Str

/-- `RequestInfo`: no claim observes its contents. -/
abbrev RequestInfo := Unit

/-- `PreMiddleware` (post-build: the handler is present). -/
structure PreMiddleware where
  path : Str
  regex : List Tok
  handler : Request → Except Err Request
  scope_depth : Nat

/-- The two post-middleware handler variants (`middleware/post.rs`). -/
inductive PostHandler where
  | withoutInfo (f : Response → Except Err Response)
  | withInfo (f : Response → RequestInfo → Except Err Response)

/-- `PostMiddleware` (post-build: the handler is present). -/
structure PostMiddleware where
  path : Str
  regex : List Tok
  handler : PostHandler
  scope_depth : Nat

/-- `PostMiddleware::process`.  A `WithInfo` handler `expect`s the request
info; `RequestInfo` is a unit here, so the default value is the one the router
would have passed. -/
def PostMiddleware.process (m : PostMiddleware) (res : Response)
    (req_info : Option RequestInfo) : Except Err Response :=
  match m.handler with
  | .withoutInfo f => f res
  | .withInfo f => f res (req_info.getD ())

/-- `Route` (post-build: the handler is present).  The route handler also
receives the extracted route parameters through the request extensions; that
extraction is modelled separately by `process_route_req_params`. -/
structure Route where
  path : Str
  regex : List Tok
  route_params : List Str
  methods : List Method
  handler : Request → Except Err Response
  scope_depth : Nat

/-- `Route::is_match_method`. -/
def Route.is_match_method (rt : Route) (m : Method) : Bool := rt.methods.contains m

/-- `ScopedDataMap`: only its path and regex take part in dispatch. -/
structure ScopedDataMap where
  path : Str
  regex : List Tok

/-- The two error-handler variants (`router/mod.rs`, `ErrHandler`). -/
inductive ErrHandler where
  | withoutInfo (f : Err → Response)
  | withInfo (f : Err → RequestInfo → Response)

/-- `ErrHandler::execute`.  A `WithInfo` handler `expect`s the request info;
`RequestInfo` is a unit here, so the default value is the one the router would
have passed. -/
def ErrHandler.execute (h : ErrHandler) (err : Err) (req_info : Option RequestInfo) : Response :=
  match h with
  | .withoutInfo f => f err
  | .withInfo f => f err (req_info.getD ())

/-- `Router<B, E>`.  `bodyIsHyper` models whether the response body type `B`
is `hyper::Body`, i.e. whether `downcast_to_hyper_body_type` succeeds; the
default participants are only installed when it does.  The `RegexSet` cached
in the `regex_set` field is recomputed on demand here
(`Router.regexSetPatterns`). -/
structure Router where
  pre_middlewares : List PreMiddleware
  routes : List Route
  post_middlewares : List PostMiddleware
  scoped_data_maps : List ScopedDataMap
  err_handler : Option ErrHandler
  bodyIsHyper : Bool

/-- Placeholder participants for out-of-range list indexing (`getD`); dispatch
only ever produces in-range indices. -/
def PreMiddleware.dummy : PreMiddleware :=
  { path := [], regex := [], handler := fun q => .ok q, scope_depth := 1 }

def PostMiddleware.dummy : PostMiddleware :=
  { path := [], regex := [], handler := .withoutInfo (fun res => .ok res), scope_depth := 1 }

def Route.dummy : Route :=
  { path := [], regex := [], route_params := [], methods := [],
    handler := fun _ => .error [], scope_depth := 1 }

def ScopedDataMap.dummy : ScopedDataMap := { path := [], regex := [] }

/-! ## Dispatch engine (`Router::init_regex_set`, `Router::match_regex_set`) -/

/-- The patterns of the router's `RegexSet`, chained in the order
`init_regex_set` builds them: pre-middleware regexes, then route regexes, then
post-middleware regexes, then scoped-data-map regexes. -/
def Router.regexSetPatterns (r : Router) : List (List Tok) :=
  r.pre_middlewares.map PreMiddleware.regex ++ r.routes.map Route.regex
    ++ r.post_middlewares.map PostMiddleware.regex
    ++ r.scoped_data_maps.map ScopedDataMap.regex

/-- `RegexSet::matches(...).into_iter()`: the indices of the patterns that
match the haystack, in ascending order. -/
def regexSetMatches (pats : List (List Tok)) (target : Str) : List Nat :=
  (List.range pats.length).filter (fun i => exactMatchB (pats.getD i []) target)

/-- One iteration of the partition loop of `Router::match_regex_set`: the hit
index is pushed to the participant class whose contiguous index range
contains it, shifted back by the start of that range. -/
def matchPartitionStep (pre_middlewares_len routes_len post_middlewares_len scoped_data_maps_len : Nat)
    (acc : List Nat × List Nat × List Nat × List Nat) (idx : Nat) :
    List Nat × List Nat × List Nat × List Nat :=
  if idx < pre_middlewares_len then
    (acc.1 ++ [idx], acc.2.1, acc.2.2.1, acc.2.2.2)
  else if idx ≥ pre_middlewares_len ∧ idx < pre_middlewares_len + routes_len then
    (acc.1, acc.2.1 ++ [idx - pre_middlewares_len], acc.2.2.1, acc.2.2.2)
  else if idx ≥ pre_middlewares_len + routes_len
      ∧ idx < pre_middlewares_len + routes_len + post_middlewares_len then
    (acc.1, acc.2.1, acc.2.2.1 ++ [idx - pre_middlewares_len - routes_len], acc.2.2.2)
  else if idx ≥ pre_middlewares_len + routes_len + post_middlewares_len
      ∧ idx < pre_middlewares_len + routes_len + post_middlewares_len + scoped_data_maps_len then
    (acc.1, acc.2.1, acc.2.2.1,
      acc.2.2.2 ++ [idx - pre_middlewares_len - routes_len - post_middlewares_len])
  else acc

/-- `Router::match_regex_set`: runs the `RegexSet` once and partitions the hit
indices into the four participant classes using the contiguous index ranges,
exactly as the source's loop does. -/
def Router.match_regex_set (r : Router) (target : Str) :
    List Nat × List Nat × List Nat × List Nat :=
  (regexSetMatches r.regexSetPatterns target).foldl
    (matchPartitionStep r.pre_middlewares.length r.routes.length
      r.post_middlewares.length r.scoped_data_maps.length)
    ([], [], [], [])

/-! ## Pipeline executor (`Router::process`, `Router::execute_pre_middleware`) -/

/-- The first loop of `Router::process`: the scope depth of the first matched
route whose method matches the (original) request method and whose path is not
the catch-all `"/*"`. -/
def Router.route_scope_depth_of (r : Router) (idxs : List Nat) (m : Method) : Option Nat :=
  match idxs with
  | [] => none
  | i :: rest =>
    let route := r.routes.getD i Route.dummy
    if route.is_match_method m ∧ route.path ≠ str "/*" then
      some route.scope_depth
    else
      r.route_scope_depth_of rest m

/-- `Router::execute_pre_middleware`: runs the matched pre-middlewares in
order; a middleware is skipped when a route depth is chosen and the
middleware's scope depth exceeds it.  A failing middleware is converted to an
error response by the error handler (ending the pre phase) or aborts.  The
second component is the trace of executed middleware indices. -/
def Router.execute_pre_middleware (r : Router) (idxs : List Nat)
    (route_scope_depth : Option Nat) (req_info : Option RequestInfo) (req : Request) :
    Except Err (Sum Request Response) × List Nat :=
  match idxs with
  | [] => (.ok (.inl req), [])
  | i :: rest =>
    let pre_middleware := r.pre_middlewares.getD i PreMiddleware.dummy
    if route_scope_depth.isNone ∨ pre_middleware.scope_depth ≤ route_scope_depth.getD 0 then
      match pre_middleware.handler req with
      | .ok res_req =>
        let (out, tr) := r.execute_pre_middleware rest route_scope_depth req_info res_req
        (out, i :: tr)
      | .error err =>
        match r.err_handler with
        | some err_handler => (.ok (.inr (err_handler.execute err req_info)), [i])
        | none => (.error err, [i])
    else
      r.execute_pre_middleware rest route_scope_depth req_info req

/-- The route loop of `Router::process`: the first matched route whose method
matches the (possibly pre-middleware-transformed) request is executed; its
failure goes through the error handler if one is installed, else aborts.
Returns the produced response outcome (`none` when no route accepted the
request) and the index of the chosen route. -/
def Router.route_phase (r : Router) (idxs : List Nat) (req_info : Option RequestInfo)
    (req : Request) : Option (Except Err Response) × Option Nat :=
  match idxs with
  | [] => (none, none)
  | i :: rest =>
    let route := r.routes.getD i Route.dummy
    if route.is_match_method req.method then
      match route.handler req with
      | .ok route_resp => (some (.ok route_resp), some i)
      | .error err =>
        match r.err_handler with
        | some err_handler => (some (.ok (err_handler.execute err req_info)), some i)
        | none => (some (.error err), some i)
    else
      r.route_phase rest req_info req

/-- `Error::new(e)` message raised when no route produced a response. -/
def HANDLE_NON_EXISTENT_ROUTE_MSG : Str :=
  str "No handlers added to handle non-existent routes. Tips: Please add an '.any' route at the bottom to handle any routes."

/-- The post-middleware loop of `Router::process`: runs the matched
post-middlewares in order with the same depth gate; on failure with an error
handler installed the handler's response is RETURNED immediately (the
remaining post-middlewares are skipped), otherwise the error aborts.  The
second component is the trace of executed middleware indices. -/
def Router.execute_post_middleware (r : Router) (idxs : List Nat)
    (route_scope_depth : Option Nat) (req_info : Option RequestInfo) (res : Response) :
    Except Err Response × List Nat :=
  match idxs with
  | [] => (.ok res, [])
  | i :: rest =>
    let post_middleware := r.post_middlewares.getD i PostMiddleware.dummy
    if route_scope_depth.isNone ∨ post_middleware.scope_depth ≤ route_scope_depth.getD 0 then
      match post_middleware.process res req_info with
      | .ok res_resp =>
        let (out, tr) := r.execute_post_middleware rest route_scope_depth req_info res_resp
        (out, i :: tr)
      | .error err =>
        match r.err_handler with
        | some err_handler => (.ok (err_handler.execute err req_info), [i])
        | none => (.error err, [i])
    else
      r.execute_post_middleware rest route_scope_depth req_info res

/-- The outcome of `Router::process`, together with the execution trace
(indices of the pre-middlewares, route and post-middlewares that ran). -/
structure ProcessOutcome where
  result : Except Err Response
  executedPre : List Nat
  executedRoute : Option Nat
  executedPost : List Nat

/-- `Router::process`. -/
def Router.process (r : Router) (target : Str) (req : Request)
    (req_info : Option RequestInfo) : ProcessOutcome :=
  let m := r.match_regex_set target
  let matched_pre_middleware_idxs := m.1
  let matched_route_idxs := m.2.1
  let matched_post_middleware_idxs := m.2.2.1
  let route_scope_depth := r.route_scope_depth_of matched_route_idxs req.method
  let pre := r.execute_pre_middleware matched_pre_middleware_idxs route_scope_depth req_info req
  match pre.1 with
  | .error err =>
    { result := .error err, executedPre := pre.2, executedRoute := none, executedPost := [] }
  | .ok (.inr err_response) =>
    let post := r.execute_post_middleware matched_post_middleware_idxs route_scope_depth
      req_info err_response
    { result := post.1, executedPre := pre.2, executedRoute := none, executedPost := post.2 }
  | .ok (.inl transformed_req) =>
    match r.route_phase matched_route_idxs req_info transformed_req with
    | (none, _) =>
      { result := .error HANDLE_NON_EXISTENT_ROUTE_MSG, executedPre := pre.2,
        executedRoute := none, executedPost := [] }
    | (some (.error err), ri) =>
      { result := .error err, executedPre := pre.2, executedRoute := ri, executedPost := [] }
    | (some (.ok resp), ri) =>
      let post := r.execute_post_middleware matched_post_middleware_idxs route_scope_depth
        req_info resp
      { result := post.1, executedPre := pre.2, executedRoute := ri, executedPost := post.2 }

/-! ## Service finalization (`src/service/router_service.rs`,
`src/service/request_service.rs`, `Router::init_*`) -/

/-- The default global `OPTIONS` route appended at finalization: path `/*`,
methods exactly `[OPTIONS]`, responding 204 No Content with an empty body. -/
def default_options_route : Route :=
  { path := str "/*", regex := exactToks (str "/*"), route_params := paramNames (str "/*"),
    methods := [.OPTIONS],
    handler := fun _ => .ok { status := 204, headers := [], body := [] },
    scope_depth := 1 }

/-- The default catch-all route appended at finalization: path `/*`, the nine
universal methods, responding 404 with `text/plain` body `"Not Found"` (the
canonical reason phrase of 404). -/
def default_404_route : Route :=
  { path := str "/*", regex := exactToks (str "/*"), route_params := paramNames (str "/*"),
    methods := ALL_POSSIBLE_HTTP_METHODS,
    handler := fun _ =>
      .ok { status := 404, headers := [(str "content-type", str "text/plain")],
            body := str "Not Found" },
    scope_depth := 1 }

/-- The default error handler installed at finalization: 500 with `text/plain`
body `"Internal Server Error: {error}"` (the canonical reason phrase of 500,
a colon, and the error's display text). -/
def default_err_handler : ErrHandler :=
  .withoutInfo (fun err =>
    { status := 500, headers := [(str "content-type", str "text/plain")],
      body := str "Internal Server Error: " ++ err })

/-- `Router::init_global_options_route` /
`RouterService::init_router_with_global_options_route`: if no route with path
`/*` and method vector exactly `[OPTIONS]` exists, and the body type downcasts
to `hyper::Body`, append the default OPTIONS route; otherwise (downcast
failure) only a warning is printed. -/
def Router.init_global_options_route (r : Router) : Router :=
  if r.routes.any (fun route =>
      decide (route.path = str "/*" ∧ route.methods = [Method.OPTIONS])) then r
  else if r.bodyIsHyper then { r with routes := r.routes ++ [default_options_route] }
  else r

/-- `Router::init_default_404_route` /
`RouterService::init_router_with_default_404_route`: if no route with path
`/*` and the universal nine-method vector exists, and the body type downcasts
to `hyper::Body`, append the default 404 route; otherwise only a warning is
printed. -/
def Router.init_default_404_route (r : Router) : Router :=
  if r.routes.any (fun route =>
      decide (route.path = str "/*" ∧ route.methods = ALL_POSSIBLE_HTTP_METHODS)) then r
  else if r.bodyIsHyper then { r with routes := r.routes ++ [default_404_route] }
  else r

/-- `Router::init_err_handler` / `RouterService::init_router_with_err_handler`:
if no error handler is installed and the body type downcasts to `hyper::Body`,
install the default one; otherwise only a warning is printed. -/
def Router.init_err_handler (r : Router) : Router :=
  if r.err_handler.isSome then r
  else if r.bodyIsHyper then { r with err_handler := some default_err_handler }
  else r

/-- The `x-powered-by` post-middleware: `PostMiddleware::new("/*", ...)` whose
handler inserts the `x-powered-by` header with value `Routerify v{version}`
into the response. -/
def x_powered_by_post_middleware (version : Str) : PostMiddleware :=
  { path := str "/*", regex := exactToks (str "/*"),
    handler := .withoutInfo (fun res =>
      .ok (insertHeader HEADER_NAME_X_POWERED_BY (HEADER_VALUE_X_POWERED_BY version) res)),
    scope_depth := 1 }

/-- `Router::init_x_powered_by_middleware` /
`RouterService::init_router_with_x_powered_by_middleware`:
`post_middlewares.insert(0, ...)`. -/
def Router.init_x_powered_by_middleware (version : Str) (r : Router) : Router :=
  { r with post_middlewares := x_powered_by_post_middleware version :: r.post_middlewares }

/-- The finalization sequence of `RouterService::new` /
`RequestServiceBuilder::new`: x-powered-by middleware, default OPTIONS route,
default 404 route, default error handler (the subsequent `init_regex_set` is
recomputed on demand by `Router.regexSetPatterns`, and `init_req_info_gen`
only caches a flag no claim observes). -/
def RouterService.init (version : Str) (r : Router) : Router :=
  (((Router.init_x_powered_by_middleware version r).init_global_options_route
    ).init_default_404_route).init_err_handler

/-! ## Request normalization (`src/service/request_service.rs`) -/

/-- The target-path normalization of `RequestService::call`: append `/` when
the (percent-decoded) path is empty or its last byte is not `/` (`/` is an
ASCII byte, so the last byte is `b'/'` exactly when the last character is
`'/'`). -/
def normalize_target_path (decoded : Str) : Str :=
  if decoded.isEmpty ∨ decoded.getLast? ≠ some '/' then decoded ++ [ '/' ] else decoded

/-- `RequestService::call` up to the hand-off to `Router::process`: the
percent-decoding of the raw request path is performed by the external
`percent_encoding` crate and enters the model as an `Except`; a decoding
failure becomes a per-request error (`Couldn't percent decode request path`),
otherwise the normalized target path is produced. -/
def request_service_target (decodeRes : Except Str Str) : Except Err Str :=
  match decodeRes with
  | .error e => .error (str "Couldn't percent decode request path: " ++ e)
  | .ok p => .ok (normalize_target_path p)

/-! ## Router builder (`src/router/builder.rs`) -/

/-- The route-path normalization of `RouterBuilder::add`: append `/` when the
path ends with neither `/` nor `*`. -/
def add_route_path (path : Str) : Str :=
  if ¬(path.getLast? = some '/') ∧ ¬(path.getLast? = some '*') then path ++ [ '/' ]
  else path

/-- A builder-held pre-middleware: the handler slot empties when the
middleware is moved out by `scope` (`Option` + `take`). -/
structure BuilderPreMiddleware where
  path : Str
  regex : List Tok
  handler : Option (Request → Except Err Request)
  scope_depth : Nat

/-- A builder-held route. -/
structure BuilderRoute where
  path : Str
  regex : List Tok
  methods : List Method
  handler : Option (Request → Except Err Response)
  scope_depth : Nat

/-- A builder-held post-middleware. -/
structure BuilderPostMiddleware where
  path : Str
  regex : List Tok
  handler : Option PostHandler
  scope_depth : Nat

/-- A built sub-router as seen by `RouterBuilder::scope`: participant lists
whose handler slots may already have been taken. -/
structure SubRouter where
  pre_middlewares : List BuilderPreMiddleware
  routes : List BuilderRoute
  post_middlewares : List BuilderPostMiddleware

/-- The builder's accumulated state (`BuilderInner`). -/
structure BuilderInner where
  pre_middlewares : List BuilderPreMiddleware
  routes : List BuilderRoute
  post_middlewares : List BuilderPostMiddleware

/-- `RouterBuilder::add`: normalizes the path and appends the route. -/
def BuilderInner.add (b : BuilderInner) (path : Str) (methods : List Method)
    (handler : Request → Except Err Response) : BuilderInner :=
  let path := add_route_path path
  { b with routes := b.routes ++
      [{ path := path, regex := exactToks path, methods := methods,
         handler := some handler, scope_depth := 1 }] }

/-- `RouterBuilder::middleware` with `Middleware::pre_with_path(path, h)` /
`PreMiddleware::new(path, h)`: the path is stored as given — no `/` is
appended. -/
def BuilderInner.pre_with_path (b : BuilderInner) (path : Str)
    (handler : Request → Except Err Request) : BuilderInner :=
  { b with pre_middlewares := b.pre_middlewares ++
      [{ path := path, regex := exactToks path, handler := some handler, scope_depth := 1 }] }

/-- `RouterBuilder::middleware` with `Middleware::post_with_path(path, h)` /
`PostMiddleware::new(path, h)`: the path is stored as given — no `/` is
appended. -/
def BuilderInner.post_with_path (b : BuilderInner) (path : Str)
    (handler : Response → Except Err Response) : BuilderInner :=
  { b with post_middlewares := b.post_middlewares ++
      [{ path := path, regex := exactToks path, handler := some (.withoutInfo handler),
         scope_depth := 1 }] }

/-- The outcome of `RouterBuilder::scope`: either the updated builder, or a
process-aborting panic with the `expect` message. -/
inductive ScopeOutcome where
  | ok (b : BuilderInner)
  | panics (msg : Str)

/-- Strip one trailing `/` from the scope prefix, as `scope` does. -/
def strip_trailing_slash (path : Str) : Str :=
  if path.getLast? = some '/' then path.dropLast else path

/-- The pre-middleware loop of `RouterBuilder::scope`: each handler is taken
out (`take().expect(…)` — a missing handler PANICS) and the middleware is
re-registered with the prefixed path and a recompiled regex. -/
def scopeMovePres (prefixPath : Str) : BuilderInner → List BuilderPreMiddleware → ScopeOutcome
  | b, [] => .ok b
  | b, m :: rest =>
    match m.handler with
    | none => .panics (str "No handler found in one of the pre-middlewares")
    | some h =>
      scopeMovePres prefixPath
        { b with pre_middlewares := b.pre_middlewares ++
            [{ path := prefixPath ++ m.path, regex := exactToks (prefixPath ++ m.path),
               handler := some h, scope_depth := m.scope_depth }] } rest

/-- The route loop of `RouterBuilder::scope`. -/
def scopeMoveRoutes (prefixPath : Str) : BuilderInner → List BuilderRoute → ScopeOutcome
  | b, [] => .ok b
  | b, m :: rest =>
    match m.handler with
    | none => .panics (str "No handler found in one of the routes")
    | some h =>
      scopeMoveRoutes prefixPath
        { b with routes := b.routes ++
            [{ path := prefixPath ++ m.path, regex := exactToks (prefixPath ++ m.path),
               methods := m.methods, handler := some h, scope_depth := m.scope_depth }] } rest

/-- The post-middleware loop of `RouterBuilder::scope`. -/
def scopeMovePosts (prefixPath : Str) : BuilderInner → List BuilderPostMiddleware → ScopeOutcome
  | b, [] => .ok b
  | b, m :: rest =>
    match m.handler with
    | none => .panics (str "No handler found in one of the post-middlewares")
    | some h =>
      scopeMovePosts prefixPath
        { b with post_middlewares := b.post_middlewares ++
            [{ path := prefixPath ++ m.path, regex := exactToks (prefixPath ++ m.path),
               handler := some h, scope_depth := m.scope_depth }] } rest

/-- `RouterBuilder::scope`: strips a trailing `/` from the prefix and moves
every participant of the sub-router into the builder with the prefixed path
and a recompiled regex.  Taking the handler of a participant whose handler was
already moved out `expect`s — i.e. PANICS with the corresponding message —
rather than returning an error.  (The scoped-data-map loop, whose
`take`/`Arc::try_unwrap` failures panic the same way, is not needed by any
claim.) -/
def BuilderInner.scope (b : BuilderInner) (path : Str) (router : SubRouter) : ScopeOutcome :=
  match scopeMovePres (strip_trailing_slash path) b router.pre_middlewares with
  | .panics msg => .panics msg
  | .ok b1 =>
    match scopeMoveRoutes (strip_trailing_slash path) b1 router.routes with
    | .panics msg => .panics msg
    | .ok b2 => scopeMovePosts (strip_trailing_slash path) b2 router.post_middlewares

/-- The error kinds of this version's `Error` enum (`src/error.rs`); there is
no `ReusedSubRouter` variant. -/
inductive ErrorKind where
  | DecodeRequestPath
  | CreateRouterRegexSet
  | GenerateExactMatchRegex
  | GeneratePrefixMatchRegex
  | HandleNonExistentRoute
  | HandlePreMiddlewareRequest
  | HandleRequest
  | HandlePostMiddlewareWithoutInfoRequest
  | HandlePostMiddlewareWithInfoRequest
  | Custom
  | Wrapped
  deriving DecidableEq, Repr

/-! ## Concrete inputs for counterexamples and witnesses -/

/-- A route at `/` answering every method with 200 `ok`. -/
def c5_root_route : Route :=
  { path := str "/", regex := exactToks (str "/"), route_params := paramNames (str "/"),
    methods := ALL_POSSIBLE_HTTP_METHODS,
    handler := fun _ => .ok { status := 200, headers := [], body := str "ok" },
    scope_depth := 1 }

/-- A post-middleware at `/*` that always fails. -/
def c5_fail_post : PostMiddleware :=
  { path := str "/*", regex := exactToks (str "/*"),
    handler := .withoutInfo (fun _ => .error (str "boom")), scope_depth := 1 }

/-- A post-middleware at `/*` that marks the response with an `m2` header. -/
def c5_mark_post : PostMiddleware :=
  { path := str "/*", regex := exactToks (str "/*"),
    handler := .withoutInfo (fun res => .ok (insertHeader (str "m2") (str "yes") res)),
    scope_depth := 1 }

/-- The response of the installed error handler below. -/
def c5_err_handler_resp : Response := { status := 500, headers := [], body := str "handled" }

/-- An installed error handler returning `c5_err_handler_resp`. -/
def c5_errH : ErrHandler := .withoutInfo (fun _ => c5_err_handler_resp)

/-- Router with one route and two matched post-middlewares, the first of which
fails; an error handler is installed. -/
def c5_router : Router :=
  { pre_middlewares := [], routes := [c5_root_route],
    post_middlewares := [c5_fail_post, c5_mark_post], scoped_data_maps := [],
    err_handler := some c5_errH, bodyIsHyper := true }

/-- A pre-middleware at `/*` that passes the request through unchanged. -/
def c2_pre : PreMiddleware :=
  { path := str "/*", regex := exactToks (str "/*"), handler := fun q => .ok q,
    scope_depth := 1 }

/-- Router with one passing pre-middleware, one route and one succeeding
post-middleware. -/
def c2_router : Router :=
  { pre_middlewares := [c2_pre], routes := [c5_root_route],
    post_middlewares := [c5_mark_post], scoped_data_maps := [],
    err_handler := none, bodyIsHyper := true }

/-- An empty router whose body type is not `hyper::Body`. -/
def c6_non_hyper_router : Router :=
  { pre_middlewares := [], routes := [], post_middlewares := [], scoped_data_maps := [],
    err_handler := none, bodyIsHyper := false }

/-- An empty router whose body type is `hyper::Body`. -/
def c6_hyper_router : Router :=
  { pre_middlewares := [], routes := [], post_middlewares := [], scoped_data_maps := [],
    err_handler := none, bodyIsHyper := true }

/-- An empty builder. -/
def c8_builder0 : BuilderInner :=
  { pre_middlewares := [], routes := [], post_middlewares := [] }

/-- A sub-router whose only pre-middleware has had its handler moved out
(as after a previous `scope`). -/
def c9_drained_pre : BuilderPreMiddleware :=
  { path := str "/todo", regex := exactToks (str "/todo"), handler := none, scope_depth := 1 }

/-- A sub-router whose only pre-middleware is `c9_drained_pre`. -/
def c9_drained_sub : SubRouter :=
  { pre_middlewares := [c9_drained_pre], routes := [], post_middlewares := [] }

/-! ## Theorems -/

theorem findNextOccurrence_rest_lt (p : Str) :
    ∀ pre t rest, findNextOccurrence p = some (pre, t, rest) → rest.length < p.length := by
  induction p with
  | nil => intro pre t rest h; simp [findNextOccurrence] at h
  | cons c cs ih =>
    intro pre t rest h
    simp only [findNextOccurrence] at h
    by_cases hstar : c = '*'
    · rw [if_pos hstar] at h
      simp only [Option.some.injEq, Prod.mk.injEq] at h
      obtain ⟨-, -, h3⟩ := h
      subst h3
      simp
    · rw [if_neg hstar] at h
      by_cases hcolon : c = ':'
      · rw [if_pos hcolon] at h
        by_cases hname : (cs.takeWhile (fun d => d ≠ '/')).isEmpty
        · rw [if_pos hname] at h
          rcases ho : findNextOccurrence cs with _ | ⟨p1, t1, r1⟩
          · rw [ho] at h; simp at h
          · rw [ho] at h
            simp only [Option.map_some', Option.some.injEq, Prod.mk.injEq] at h
            obtain ⟨-, -, h3⟩ := h
            have hlt := ih p1 t1 r1 ho
            subst h3
            simp only [List.length_cons]
            omega
        · rw [if_neg hname] at h
          simp only [Option.some.injEq, Prod.mk.injEq] at h
          obtain ⟨-, -, h3⟩ := h
          have hle : (cs.dropWhile (fun d => d ≠ '/')).length ≤ cs.length :=
            (List.dropWhile_suffix _).length_le
          subst h3
          simp only [List.length_cons]
          omega
      · rw [if_neg hcolon] at h
        rcases ho : findNextOccurrence cs with _ | ⟨p1, t1, r1⟩
        · rw [ho] at h; simp at h
        · rw [ho] at h
          simp only [Option.map_some', Option.some.injEq, Prod.mk.injEq] at h
          obtain ⟨-, -, h3⟩ := h
          have hlt := ih p1 t1 r1 ho
          subst h3
          simp only [List.length_cons]
          omega

/-- While in skip mode, the scanner behaves like the main scanner restarted at
the first `/` (the rest of the `:name` run is already consumed). -/
theorem scanAux_skip_eq (p : Str) :
    scanAux p true = scanAux (p.dropWhile (fun d => d ≠ '/')) false := by
  induction p with
  | nil => rfl
  | cons c cs ih =>
    by_cases hc : c = '/'
    · subst hc
      simp [scanAux, List.dropWhile_cons]
    · rw [List.dropWhile_cons_of_pos (by simpa using hc)]
      simp only [scanAux, if_neg hc]
      exact ih

/-- The structural scanner satisfies the defining equation of the source's
match-position loop. -/
theorem scanAux_loop_eq (p : Str) :
    scanAux p false =
      match findNextOccurrence p with
      | none => (p.map Tok.lit, [])
      | some (pre, (tok, name), rest) =>
        ((pre.map Tok.lit ++ tok :: (scanAux rest false).1),
          name :: (scanAux rest false).2) := by
  induction p with
  | nil => rfl
  | cons c cs ih =>
    rcases ho : findNextOccurrence cs with _ | ⟨p1, ⟨t1, n1⟩, r1⟩ <;>
      rw [ho] at ih <;>
      rw [findNextOccurrence, scanAux, ho] <;>
      split_ifs with h1 h2 h3 h4 <;>
      simp_all [scanAux_skip_eq]
    all_goals
      rw [if_neg (show ¬∀ (hl : 0 < cs.length), cs[0] = '/' from fun hall => by
        obtain ⟨hx, hne⟩ := h2
        exact hne (hall hx))]
      simp

/-- With enough fuel, the position-loop translation of the scan agrees with
its structural form. -/
theorem commonToksFuel_eq_scan (fuel : Nat) (p : Str) (hf : p.length ≤ fuel) :
    commonToksFuel fuel p = scanAux p false := by
  induction fuel generalizing p with
  | zero =>
    have hp : p = [] := List.length_eq_zero.mp (Nat.le_zero.mp hf)
    subst hp
    rfl
  | succ fuel ih =>
    rw [commonToksFuel]
    rcases ho : findNextOccurrence p with _ | ⟨pre, ⟨tok, name⟩, rest⟩
    · rw [scanAux_loop_eq, ho]
    · have hlt := findNextOccurrence_rest_lt p pre (tok, name) rest ho
      rw [scanAux_loop_eq p]
      simp only [ho, ih rest (by omega)]

/-- The position-loop translation of the scan agrees with its structural
form. -/
theorem commonToks_eq_commonScan (p : Str) : commonToks p = commonScan p :=
  commonToksFuel_eq_scan p.length p le_rfl

/-- Rendering the structural scan to a regex string gives exactly the
claim-side direct description of the compiler. -/
theorem renderScan_eq_spec (p : Str) :
    (renderToks (commonScan p).1, (commonScan p).2) = specCommonRegexStr p := by
  match p with
  | [] =>
    rw [specCommonRegexStr]
    rfl
  | c :: cs =>
    rw [specCommonRegexStr]
    unfold commonScan
    rw [scanAux]
    split_ifs with h1 h2
    · have ih := renderScan_eq_spec cs
      rw [← ih]
      simp [renderToks, Tok.render, commonScan]
    · have hle : (cs.dropWhile (fun d => d ≠ '/')).length ≤ cs.length :=
        (List.dropWhile_suffix _).length_le
      have ih := renderScan_eq_spec (cs.dropWhile (fun d => d ≠ '/'))
      rw [← ih]
      rw [scanAux_skip_eq]
      simp [renderToks, Tok.render, commonScan]
    · have ih := renderScan_eq_spec cs
      rw [← ih]
      simp [renderToks, Tok.render, commonScan]
termination_by p.length
decreasing_by
  · simp
  · simp only [List.length_cons]; omega
  · simp

/-- C3: for every path pattern, the compiler scans non-overlapping occurrences
of `:[^/]+` or `*`, regex-escapes the literal text between occurrences,
replaces `:name` by the group `([^/]+)` pushing `name` onto the parameter-name
list, replaces `*` by the group `(.*)` pushing `*`, and the exact compile
anchors the result as `^…$` while the prefix compile anchors it as `^…`, both
with dot-matches-newline semantics (the `(?s)` flag prefixed to both regex
strings). -/
theorem c3_path_pattern_compiler (p : Str) :
    generate_common_regex_str p = specCommonRegexStr p ∧
    generate_exact_match_regex_str p
      = (str "(?s)^" ++ (specCommonRegexStr p).1 ++ str "$", (specCommonRegexStr p).2) ∧
    generate_prefix_match_regex_str p
      = (str "(?s)^" ++ (specCommonRegexStr p).1, (specCommonRegexStr p).2) := by
  have h : generate_common_regex_str p = specCommonRegexStr p := by
    rw [generate_common_regex_str, commonToks_eq_commonScan, ← renderScan_eq_spec p]
  refine ⟨h, ?_, ?_⟩
  · rw [generate_exact_match_regex_str, h]
  · rw [generate_prefix_match_regex_str, h]

theorem exactMatchB_lit_cons (c : Char) (ts : List Tok) (s : Str) :
    exactMatchB (.lit c :: ts) (c :: s) = exactMatchB ts s := by
  simp [exactMatchB]

theorem exactMatchB_nonSlash_intro (ts : List Tok) (g s : Str) (hg : g ≠ [])
    (hall : ∀ d ∈ g, d ≠ '/') (hm : exactMatchB ts s = true) :
    exactMatchB (.nonSlashGroup :: ts) (g ++ s) = true := by
  rw [exactMatchB]
  rw [List.any_eq_true]
  refine ⟨g.length - 1, ?_, ?_⟩
  · rw [List.mem_range, List.length_append]
    have : 1 ≤ g.length := List.length_pos.mpr hg
    omega
  · have h1 : g.length - 1 + 1 = g.length := by
      have : 1 ≤ g.length := List.length_pos.mpr hg
      omega
    rw [Bool.and_eq_true]
    constructor
    · rw [h1, List.take_left]
      rw [List.all_eq_true]
      intro d hd
      simpa using hall d hd
    · rw [h1, List.drop_left]
      exact hm

theorem exactMatchB_star_intro (ts : List Tok) (g s : Str)
    (hm : exactMatchB ts s = true) :
    exactMatchB (.starGroup :: ts) (g ++ s) = true := by
  rw [exactMatchB]
  rw [List.any_eq_true]
  refine ⟨g.length, ?_, ?_⟩
  · rw [List.mem_range, List.length_append]
    omega
  · rw [List.drop_left]
    exact hm

/-- Every compiled path's exact regex matches the path itself. -/
theorem exactMatchB_scan_self (p : Str) :
    exactMatchB ((scanAux p false).1) p = true := by
  match p with
  | [] => rfl
  | c :: cs =>
    rw [scanAux]
    split_ifs with h1 h2
    · subst h1
      have ih := exactMatchB_scan_self cs
      show exactMatchB (.starGroup :: (scanAux cs false).1) (['*'] ++ cs) = true
      exact exactMatchB_star_intro _ _ _ ih
    · obtain ⟨hc, hne⟩ := h2
      subst hc
      have ih := exactMatchB_scan_self (cs.dropWhile (fun d => d ≠ '/'))
      rw [scanAux_skip_eq]
      have hsplit : ':' :: cs =
          (':' :: cs.takeWhile (fun d => d ≠ '/')) ++ cs.dropWhile (fun d => d ≠ '/') := by
        rw [List.cons_append, List.takeWhile_append_dropWhile]
      rw [hsplit]
      refine exactMatchB_nonSlash_intro _ _ _ (by simp) ?_ ih
      intro d hd
      rcases List.mem_cons.mp hd with h | h
      · subst h; decide
      · simpa using List.mem_takeWhile_imp h
    · have ih := exactMatchB_scan_self cs
      show exactMatchB (.lit c :: (scanAux cs false).1) (c :: cs) = true
      rw [exactMatchB_lit_cons]
      exact ih
termination_by p.length
decreasing_by
  · simp
  · simp only [List.length_cons]
    have : (cs.dropWhile (fun d => d ≠ '/')).length ≤ cs.length :=
      (List.dropWhile_suffix _).length_le
    omega
  · simp

/-- A pattern that produced no parameter names compiles to pure literals. -/
theorem scan_lit_of_no_params (p : Str) (h : (scanAux p false).2 = []) :
    (scanAux p false).1 = p.map Tok.lit := by
  induction p with
  | nil => rfl
  | cons c cs ih =>
    rw [scanAux] at h ⊢
    split_ifs at h ⊢ with h1 h2
    simp_all

/-- A pure-literal regex matches exactly its own literal string. -/
theorem exactMatchB_lit_iff (l s : Str) :
    exactMatchB (l.map Tok.lit) s = true ↔ s = l := by
  induction l generalizing s with
  | nil =>
    cases s <;> simp [exactMatchB]
  | cons c cs ih =>
    cases s with
    | nil => simp [exactMatchB]
    | cons d ds =>
      rw [List.map_cons]
      rw [show exactMatchB (.lit c :: cs.map Tok.lit) (d :: ds)
            = (c = d && exactMatchB (cs.map Tok.lit) ds) from rfl]
      rw [Bool.and_eq_true]
      constructor
      · rintro ⟨hcd, hm⟩
        have : c = d := by simpa using hcd
        subst this
        rw [(ih ds).mp hm]
      · rintro h
        injection h with h1 h2
        subst h1
        subst h2
        exact ⟨by simp, (ih ds).mpr rfl⟩

theorem exactToks_eq_scan (p : Str) : exactToks p = (scanAux p false).1 := by
  rw [exactToks, commonToks_eq_commonScan]
  rfl

theorem paramNames_eq_scan (p : Str) : paramNames p = (scanAux p false).2 := by
  rw [paramNames, commonToks_eq_commonScan]
  rfl

/-- C7 counterexample: the claim "the exact-match regex produced for `P` does
not match any strict extension `P + extra`" fails at the concrete path
`P = "/users/:name"` with `extra = "x"`: the compiled regex
`(?s)^/users/([^/]+)$` matches `"/users/:namex"`. -/
theorem c7_counterexample :
    str "x" ≠ [] ∧
    exactMatchB (exactToks (str "/users/:name")) (str "/users/:name" ++ str "x") = true := by
  constructor
  · decide
  · decide

/-- C7 (amended): for every compiled path `P`, the exact-match regex matches
the exact string `P` itself; and provided `P` contains no `:name` or `*`
occurrence (equivalently, its parameter-name list is empty), it does not match
any strict extension `P + extra`. -/
theorem c7_exact_regex_self_amended (p : Str) :
    exactMatchB (exactToks p) p = true ∧
    (paramNames p = [] →
      ∀ extra : Str, extra ≠ [] → exactMatchB (exactToks p) (p ++ extra) = false) := by
  constructor
  · rw [exactToks_eq_scan]
    exact exactMatchB_scan_self p
  · intro hnp extra hne
    rw [exactToks_eq_scan]
    have hlit : (scanAux p false).1 = p.map Tok.lit :=
      scan_lit_of_no_params p (by rw [← paramNames_eq_scan]; exact hnp)
    rw [hlit]
    rw [Bool.eq_false_iff]
    intro hmt
    have happ := (exactMatchB_lit_iff p (p ++ extra)).mp hmt
    have hlen := congrArg List.length happ
    simp only [List.length_append] at hlen
    exact hne (List.length_eq_zero.mp (by omega))

/-- Witness for the amended C7 theorem at `P = "/users/"`, `extra = "x"`. -/
theorem c7_exact_regex_self_amended_witness :
    exactMatchB (exactToks (str "/users/")) (str "/users/") = true ∧
    exactMatchB (exactToks (str "/users/")) (str "/users/" ++ str "x") = false :=
  ⟨(c7_exact_regex_self_amended (str "/users/")).1,
   (c7_exact_regex_self_amended (str "/users/")).2 (by decide) (str "x") (by decide)⟩

/-- C4: evaluation at the failing input.  For the route path
`/api/:first/plus/:second` (the route of the repository's own integration test
`can_extract_path_params`) and the matching target `/api/40/plus/2`, the code
of `Route::process_route_req` maps `first` to the WHOLE target path and never
sets `second`, while zipping the parameter names with the capture groups — as
the spec describes and the test asserts — yields `first = 40`, `second = 2`. -/
theorem c4_params_eval_at_failing_input :
    process_route_req_params (str "/api/:first/plus/:second") (str "/api/40/plus/2")
      = [(str "first", str "/api/40/plus/2")] ∧
    specRouteParams (str "/api/:first/plus/:second") (str "/api/40/plus/2")
      = [(str "first", str "40"), (str "second", str "2")] ∧
    paramsGet (process_route_req_params (str "/api/:first/plus/:second")
        (str "/api/40/plus/2")) (str "second") = none := by
  refine ⟨by decide, by decide, by decide⟩

theorem init_global_options_route_preserves_posts (r : Router) :
    (r.init_global_options_route).post_middlewares = r.post_middlewares := by
  rw [Router.init_global_options_route]
  split_ifs <;> rfl

theorem init_default_404_route_preserves_posts (r : Router) :
    (r.init_default_404_route).post_middlewares = r.post_middlewares := by
  rw [Router.init_default_404_route]
  split_ifs <;> rfl

theorem init_err_handler_preserves_posts (r : Router) :
    (r.init_err_handler).post_middlewares = r.post_middlewares := by
  rw [Router.init_err_handler]
  split_ifs <;> rfl

/-- C10: finalizing a router into a service inserts a post-middleware at path
`/*` at index 0 of the post-middleware list, ahead of every user-registered
post-middleware; its handler adds the `x-powered-by` header with value
`Routerify v{version}` to every response it processes, and its `/*` regex
matches every target path that starts with `/` (every normalized
origin-form request path). -/
theorem c10_x_powered_by_middleware (version : Str) (r : Router) :
    ((RouterService.init version r).post_middlewares
        = x_powered_by_post_middleware version :: r.post_middlewares) ∧
    (x_powered_by_post_middleware version).path = str "/*" ∧
    (∀ res info, (x_powered_by_post_middleware version).process res info
        = .ok (insertHeader (str "x-powered-by") (str "Routerify v" ++ version) res)) ∧
    (∀ res, (str "x-powered-by", str "Routerify v" ++ version)
        ∈ (insertHeader (str "x-powered-by") (str "Routerify v" ++ version) res).headers) ∧
    (∀ rest : Str, exactMatchB (x_powered_by_post_middleware version).regex ('/' :: rest) = true) := by
  refine ⟨?_, rfl, fun res info => rfl, fun res => ?_, fun rest => ?_⟩
  · rw [RouterService.init, init_err_handler_preserves_posts,
      init_default_404_route_preserves_posts, init_global_options_route_preserves_posts]
    rfl
  · rw [insertHeader]
    exact List.mem_cons_self _ _
  · show exactMatchB (exactToks (str "/*")) ('/' :: rest) = true
    have htoks : exactToks (str "/*") = [Tok.lit '/', Tok.starGroup] := by decide
    rw [htoks]
    rw [exactMatchB_lit_cons]
    have := exactMatchB_star_intro [] rest [] rfl
    simpa using this

/-- C5 counterexample: in `c5_router` both post-middlewares at `/*` are
matched for target `/` and pass the depth gate, the first one fails and the
error handler is installed — yet only the first post-middleware executes and
the error handler's response is returned as the final response untouched; the
second matched post-middleware does NOT still run on it, contradicting the
claim. -/
theorem c5_counterexample :
    (c5_router.match_regex_set (str "/")).2.2.1 = [0, 1] ∧
    (c5_router.process (str "/") { method := .GET, marks := [] } none).executedPost = [0] ∧
    (c5_router.process (str "/") { method := .GET, marks := [] } none).result
      = .ok c5_err_handler_resp := by
  refine ⟨rfl, rfl, rfl⟩

/-- C5 (amended): when a matched, depth-admitted post-middleware fails, an
installed error handler's response is returned immediately as the final
response and the remaining matched post-middlewares are skipped; with no
error handler installed the error bubbles out of the call. -/
theorem c5_post_error_amended (r : Router) (i : Nat) (rest : List Nat)
    (depth? : Option Nat) (info : Option RequestInfo) (res : Response) (err : Err)
    (h : ErrHandler)
    (hgate : depth?.isNone ∨ (r.post_middlewares.getD i PostMiddleware.dummy).scope_depth ≤ depth?.getD 0)
    (hfail : (r.post_middlewares.getD i PostMiddleware.dummy).process res info = .error err) :
    (r.err_handler = some h →
      r.execute_post_middleware (i :: rest) depth? info res = (.ok (h.execute err info), [i])) ∧
    (r.err_handler = none →
      r.execute_post_middleware (i :: rest) depth? info res = (.error err, [i])) := by
  constructor <;> intro heq <;>
    rw [Router.execute_post_middleware] <;>
    rw [if_pos hgate] <;>
    rw [hfail] <;>
    rw [heq]

/-- Witness for the amended C5 theorem: the first post-middleware of
`c5_router` fails on the 200 response; the loop returns the error handler's
response at once, having executed only index 0. -/
theorem c5_post_error_amended_witness :
    c5_router.execute_post_middleware [0, 1] none none
        { status := 200, headers := [], body := str "ok" }
      = (.ok (c5_errH.execute (str "boom") none), [0]) :=
  (c5_post_error_amended c5_router 0 [1] none none
      { status := 200, headers := [], body := str "ok" } (str "boom") c5_errH
      (Or.inl rfl) rfl).1 rfl

/-- C6 counterexample: for a finalized router whose response body type is not
`hyper::Body` (the `downcast_to_hyper_body_type` in
`init_global_options_route` fails), no route with path `/*` and method set
`[OPTIONS]` exists and yet none is appended — only a warning is printed. -/
theorem c6_counterexample :
    c6_non_hyper_router.routes.any (fun route =>
        decide (route.path = str "/*" ∧ route.methods = [Method.OPTIONS])) = false ∧
    (Router.init_global_options_route c6_non_hyper_router).routes = [] := by
  exact ⟨rfl, rfl⟩

/-- C6 (amended): at finalization of a router whose response body type is
`hyper::Body`: if no route with path `/*` and method vector exactly
`[OPTIONS]` exists, one returning 204 No Content with an empty body is
appended; if no route with path `/*` and the universal nine-method vector
exists, one returning 404 with content-type `text/plain` and body `Not Found`
is appended; and if no error handler is installed, one returning 500
`text/plain` with body `Internal Server Error: {error}` is installed.  For a
router whose body type is not `hyper::Body` only a warning is printed. -/
theorem c6_default_participants_amended (r : Router) (hb : r.bodyIsHyper = true) :
    (r.routes.any (fun route =>
        decide (route.path = str "/*" ∧ route.methods = [Method.OPTIONS])) = false →
      (r.init_global_options_route).routes = r.routes ++ [default_options_route]) ∧
    (∀ req, default_options_route.handler req
        = .ok { status := 204, headers := [], body := [] }) ∧
    (r.routes.any (fun route =>
        decide (route.path = str "/*" ∧ route.methods = ALL_POSSIBLE_HTTP_METHODS)) = false →
      (r.init_default_404_route).routes = r.routes ++ [default_404_route]) ∧
    (∀ req, default_404_route.handler req
        = .ok { status := 404, headers := [(str "content-type", str "text/plain")],
                body := str "Not Found" }) ∧
    (r.err_handler = none →
      (r.init_err_handler).err_handler = some default_err_handler) ∧
    (∀ err info, default_err_handler.execute err info
        = { status := 500, headers := [(str "content-type", str "text/plain")],
            body := str "Internal Server Error: " ++ err }) := by
  refine ⟨?_, fun req => rfl, ?_, fun req => rfl, ?_, fun err info => rfl⟩
  · intro hfound
    rw [Router.init_global_options_route]
    rw [if_neg (by rw [hfound]; simp), if_pos hb]
  · intro hfound
    rw [Router.init_default_404_route]
    rw [if_neg (by rw [hfound]; simp), if_pos hb]
  · intro hnone
    rw [Router.init_err_handler]
    rw [if_neg (by simp [hnone]), if_pos hb]

/-- Witness for the amended C6 theorem at the empty `hyper::Body` router. -/
theorem c6_default_participants_amended_witness :
    (c6_hyper_router.init_global_options_route).routes = [default_options_route] ∧
    (c6_hyper_router.init_default_404_route).routes = [default_404_route] ∧
    (c6_hyper_router.init_err_handler).err_handler = some default_err_handler :=
  ⟨(c6_default_participants_amended c6_hyper_router rfl).1 rfl,
   (c6_default_participants_amended c6_hyper_router rfl).2.2.1 rfl,
   (c6_default_participants_amended c6_hyper_router rfl).2.2.2.2.1 rfl⟩

/-- C8 counterexample: a pre-middleware registered through
`Middleware::pre_with_path("/abc", …)` keeps the path `/abc`, which ends with
neither `/` nor `*` — the builder appends `/` only to ROUTE paths in `add`. -/
theorem c8_counterexample :
    ((c8_builder0.pre_with_path (str "/abc") (fun q => .ok q)).pre_middlewares.map
        (fun m => m.path)) = [str "/abc"] ∧
    (str "/abc").getLast? ≠ some '/' ∧
    (str "/abc").getLast? ≠ some '*' := by
  refine ⟨rfl, by decide, by decide⟩

/-- C8 (amended): every ROUTE path registered through the builder's `add`
ends with `/` or `*` (the builder appends `/` when the given path ends with
neither); middleware paths are stored as given.  Every request target path is
suffixed with `/` before matching when it is empty or does not already end in
`/`, after percent-decoding it, and a decoding failure is a per-request
error. -/
theorem c8_path_normalization_amended (path : Str) (decoded : Str) (e : Str) :
    ((add_route_path path).getLast? = some '/' ∨ (add_route_path path).getLast? = some '*') ∧
    ((c8_builder0.add path [] (fun _ => .error [])).routes.map (fun rt => rt.path))
      = [add_route_path path] ∧
    (normalize_target_path decoded).getLast? = some '/' ∧
    request_service_target (.error e)
      = .error (str "Couldn't percent decode request path: " ++ e) ∧
    request_service_target (.ok decoded) = .ok (normalize_target_path decoded) := by
  refine ⟨?_, rfl, ?_, rfl, rfl⟩
  · rw [add_route_path]
    split_ifs with hc
    · left
      exact List.getLast?_concat _
    · rcases not_and_or.mp hc with h | h
      · left; exact not_not.mp h
      · right; exact not_not.mp h
  · rw [normalize_target_path]
    split_ifs with hc
    · exact List.getLast?_concat _
    · rcases not_or.mp hc with ⟨-, h⟩
      exact not_not.mp h

/-- C9 counterexample: scoping a sub-router whose pre-middleware handler has
already been moved out does not surface any error value to the caller — the
`handler.take().expect(…)` PANICS with its expect message instead (and the
`Error` enum of this version has no `ReusedSubRouter` variant at all, see
`ErrorKind`). -/
theorem c9_counterexample :
    c8_builder0.scope (str "/api") c9_drained_sub
      = .panics (str "No handler found in one of the pre-middlewares") := rfl

/-- C9 (amended): scoping a sub-router one of whose pre-middlewares has had
its handler moved out (because it was previously mounted) panics with the
`expect` message `No handler found in one of the pre-middlewares` — it aborts
the process rather than failing the build with an error; no `ReusedSubRouter`
error kind exists. -/
theorem c9_scope_drained_panics (b : BuilderInner) (path : Str) (sub : SubRouter)
    (h : ∃ m ∈ sub.pre_middlewares, m.handler.isNone = true) :
    ∃ msg, b.scope path sub = .panics msg := by
  obtain ⟨m, hmem, hnone⟩ := h
  have key : ∀ (l : List BuilderPreMiddleware) (b1 : BuilderInner),
      (∃ m ∈ l, m.handler.isNone = true) →
      ∃ msg, scopeMovePres (strip_trailing_slash path) b1 l = .panics msg := by
    intro l
    induction l with
    | nil =>
      intro b1 hex
      simp at hex
    | cons m0 rest ih =>
      intro b1 hex
      rcases ho : m0.handler with _ | h0
      · exact ⟨_, by rw [scopeMovePres, ho]⟩
      · obtain ⟨m1, hm1, hn1⟩ := hex
        rcases List.mem_cons.mp hm1 with heq | hmem1
        · subst heq
          rw [ho] at hn1
          simp at hn1
        · obtain ⟨msg, hmsg⟩ := ih _ ⟨m1, hmem1, hn1⟩
          exact ⟨msg, by rw [scopeMovePres, ho]; exact hmsg⟩
  obtain ⟨msg, hmsg⟩ := key sub.pre_middlewares b ⟨m, hmem, hnone⟩
  refine ⟨msg, ?_⟩
  rw [BuilderInner.scope, hmsg]

/-- Witness for the amended C9 theorem at the concrete drained sub-router. -/
theorem c9_scope_drained_panics_witness :
    ∃ msg, c8_builder0.scope (str "/api") c9_drained_sub = .panics msg :=
  c9_scope_drained_panics c8_builder0 (str "/api") c9_drained_sub
    ⟨c9_drained_pre, by simp [c9_drained_sub], rfl⟩

theorem foldl_matchPartitionStep (p q z w : Nat) (l : List Nat) (a b c d : List Nat) :
    l.foldl (matchPartitionStep p q z w) (a, b, c, d) =
      (a ++ l.filter (fun i => decide (i < p)),
       b ++ (l.filter (fun i => decide (i ≥ p ∧ i < p + q))).map (fun i => i - p),
       c ++ (l.filter (fun i => decide (i ≥ p + q ∧ i < p + q + z))).map (fun i => i - p - q),
       d ++ (l.filter (fun i => decide (i ≥ p + q + z ∧ i < p + q + z + w))).map
         (fun i => i - p - q - z)) := by
  induction l generalizing a b c d with
  | nil => simp
  | cons x xs ih =>
    rw [List.foldl_cons, matchPartitionStep]
    split_ifs with h1 h2 h3 h4
    · have n2 : ¬(x ≥ p ∧ x < p + q) := by omega
      have n3 : ¬(x ≥ p + q ∧ x < p + q + z) := by omega
      have n4 : ¬(x ≥ p + q + z ∧ x < p + q + z + w) := by omega
      rw [ih]
      simp [List.filter_cons, h1, n2, n3, n4]
    · have n1 : ¬(x < p) := by omega
      have n3 : ¬(x ≥ p + q ∧ x < p + q + z) := by omega
      have n4 : ¬(x ≥ p + q + z ∧ x < p + q + z + w) := by omega
      rw [ih]
      simp [List.filter_cons, h2, n1, n3, n4]
    · have n1 : ¬(x < p) := by omega
      have n2 : ¬(x ≥ p ∧ x < p + q) := by omega
      have n4 : ¬(x ≥ p + q + z ∧ x < p + q + z + w) := by omega
      rw [ih]
      simp [List.filter_cons, h3, n1, n2, n4]
    · have n1 : ¬(x < p) := by omega
      have n2 : ¬(x ≥ p ∧ x < p + q) := by omega
      have n3 : ¬(x ≥ p + q ∧ x < p + q + z) := by omega
      rw [ih]
      simp [List.filter_cons, h4, n1, n2, n3]
    · have n1 : ¬(x < p) := by omega
      rw [ih]
      simp [List.filter_cons, h1, h2, h3, h4]

theorem getD_map_of_lt {α β : Type} (f : α → β) (l : List α) (i : Nat) (d : β) (d0 : α)
    (h : i < l.length) : (l.map f).getD i d = f (l.getD i d0) := by
  rw [List.getD_eq_getElem (l.map f) d (by simpa using h), List.getD_eq_getElem l d0 h]
  simp

/-- Splitting the `RegexSet` hit list along an append of two pattern blocks. -/
theorem regexSetMatches_append (l1 l2 : List (List Tok)) (t : Str) :
    regexSetMatches (l1 ++ l2) t
      = regexSetMatches l1 t ++ (regexSetMatches l2 t).map (fun j => l1.length + j) := by
  rw [regexSetMatches, regexSetMatches, regexSetMatches]
  rw [List.length_append, List.range_add, List.filter_append, List.filter_map]
  congr 1
  · apply List.filter_congr
    intro i hi
    rw [List.getD_append _ _ _ _ (List.mem_range.mp hi)]
  · rw [← List.filter_map]
    rw [List.filter_map]
    congr 1
    apply List.filter_congr
    intro j hj
    show exactMatchB ((l1 ++ l2).getD (l1.length + j) []) t
        = exactMatchB (l2.getD j []) t
    have harith : l1.length + j - l1.length = j := by omega
    rw [List.getD_append_right _ _ _ _ (by omega), harith]

theorem mem_range_filter {len : Nat} {pr : Nat → Bool} {x : Nat}
    (hx : x ∈ (List.range len).filter pr) : x < len :=
  List.mem_range.mp (List.mem_filter.mp hx).1

theorem mem_range_filter_shift {len s : Nat} {pr : Nat → Bool} {x : Nat}
    (hx : x ∈ ((List.range len).filter pr).map (fun j => s + j)) : s ≤ x ∧ x < s + len := by
  obtain ⟨j, hj, rfl⟩ := List.mem_map.mp hx
  have := mem_range_filter hj
  omega

theorem map_shift_unshift {s : Nat} (l : List Nat) (f : Nat → Nat)
    (hf : ∀ j, f (s + j) = j) : (l.map (fun j => s + j)).map f = l := by
  rw [List.map_map]
  have : (f ∘ fun j => s + j) = id := funext fun j => hf j
  rw [this, List.map_id]

theorem filter_range_block_self {len : Nat} {pr p2 : Nat → Bool}
    (h : ∀ x, x < len → p2 x = true) :
    ((List.range len).filter pr).filter p2 = (List.range len).filter pr :=
  List.filter_eq_self.mpr fun x hx => h x (mem_range_filter hx)

theorem filter_range_block_nil {len : Nat} {pr p2 : Nat → Bool}
    (h : ∀ x, x < len → p2 x = false) :
    ((List.range len).filter pr).filter p2 = [] :=
  List.filter_eq_nil_iff.mpr fun x hx => by simp [h x (mem_range_filter hx)]

theorem filter_shift_block_self {len s : Nat} {pr p2 : Nat → Bool}
    (h : ∀ x, s ≤ x → x < s + len → p2 x = true) :
    (((List.range len).filter pr).map (fun j => s + j)).filter p2
      = ((List.range len).filter pr).map (fun j => s + j) :=
  List.filter_eq_self.mpr fun x hx =>
    have hb := mem_range_filter_shift hx
    h x hb.1 hb.2

theorem filter_shift_block_nil {len s : Nat} {pr p2 : Nat → Bool}
    (h : ∀ x, s ≤ x → x < s + len → p2 x = false) :
    (((List.range len).filter pr).map (fun j => s + j)).filter p2 = [] :=
  List.filter_eq_nil_iff.mpr fun x hx => by
    have hb := mem_range_filter_shift hx
    simp [h x hb.1 hb.2]

/-- The partition loop applied to the hit list of a four-block pattern
concatenation recovers, for each block, the ascending list of the indices of
its matching patterns. -/
theorem matches_partition_general (P Q Z W : List (List Tok)) (t : Str) :
    (regexSetMatches (P ++ Q ++ Z ++ W) t).foldl
        (matchPartitionStep P.length Q.length Z.length W.length) ([], [], [], []) =
      ((List.range P.length).filter (fun i => exactMatchB (P.getD i []) t),
       (List.range Q.length).filter (fun i => exactMatchB (Q.getD i []) t),
       (List.range Z.length).filter (fun i => exactMatchB (Z.getD i []) t),
       (List.range W.length).filter (fun i => exactMatchB (W.getD i []) t)) := by
  have hm : regexSetMatches (P ++ Q ++ Z ++ W) t
      = (List.range P.length).filter (fun i => exactMatchB (P.getD i []) t)
        ++ ((List.range Q.length).filter (fun i => exactMatchB (Q.getD i []) t)).map
            (fun j => P.length + j)
        ++ ((List.range Z.length).filter (fun i => exactMatchB (Z.getD i []) t)).map
            (fun j => P.length + Q.length + j)
        ++ ((List.range W.length).filter (fun i => exactMatchB (W.getD i []) t)).map
            (fun j => P.length + Q.length + Z.length + j) := by
    rw [regexSetMatches_append (P ++ Q ++ Z) W t,
        regexSetMatches_append (P ++ Q) Z t,
        regexSetMatches_append P Q t]
    rw [regexSetMatches, regexSetMatches, regexSetMatches, regexSetMatches]
    simp only [List.length_append]
  rw [hm, foldl_matchPartitionStep]
  simp only [List.nil_append, Prod.mk.injEq]
  refine ⟨?_, ?_, ?_, ?_⟩
  · rw [List.filter_append, List.filter_append, List.filter_append]
    rw [filter_range_block_self (fun x hx => by simp [hx]),
        filter_shift_block_nil (fun x h1 h2 => by simp; omega),
        filter_shift_block_nil (fun x h1 h2 => by simp; omega),
        filter_shift_block_nil (fun x h1 h2 => by simp; omega)]
    simp
  · rw [List.filter_append, List.filter_append, List.filter_append]
    rw [filter_range_block_nil (fun x hx => by simp; omega),
        filter_shift_block_self (fun x h1 h2 => by simp; omega),
        filter_shift_block_nil (fun x h1 h2 => by simp; omega),
        filter_shift_block_nil (fun x h1 h2 => by simp; omega)]
    rw [List.nil_append, List.append_nil, List.append_nil]
    exact map_shift_unshift _ _ (fun j => by omega)
  · rw [List.filter_append, List.filter_append, List.filter_append]
    rw [filter_range_block_nil (fun x hx => by simp; omega),
        filter_shift_block_nil (fun x h1 h2 => by simp; omega),
        filter_shift_block_self (fun x h1 h2 => by simp; omega),
        filter_shift_block_nil (fun x h1 h2 => by simp; omega)]
    rw [List.nil_append, List.nil_append, List.append_nil]
    exact map_shift_unshift _ _ (fun j => by omega)
  · rw [List.filter_append, List.filter_append, List.filter_append]
    rw [filter_range_block_nil (fun x hx => by simp; omega),
        filter_shift_block_nil (fun x h1 h2 => by simp; omega),
        filter_shift_block_nil (fun x h1 h2 => by simp; omega),
        filter_shift_block_self (fun x h1 h2 => by simp; omega)]
    rw [List.nil_append, List.nil_append, List.nil_append]
    exact map_shift_unshift _ _ (fun j => by omega)

/-- The partition produced by `Router::match_regex_set`, characterized per
participant class (shared helper). -/
theorem match_regex_set_spec (r : Router) (target : Str) :
    r.match_regex_set target =
      ((List.range r.pre_middlewares.length).filter
          (fun i => exactMatchB (r.pre_middlewares.getD i PreMiddleware.dummy).regex target),
       (List.range r.routes.length).filter
          (fun i => exactMatchB (r.routes.getD i Route.dummy).regex target),
       (List.range r.post_middlewares.length).filter
          (fun i => exactMatchB (r.post_middlewares.getD i PostMiddleware.dummy).regex target),
       (List.range r.scoped_data_maps.length).filter
          (fun i => exactMatchB (r.scoped_data_maps.getD i ScopedDataMap.dummy).regex target)) := by
  rw [Router.match_regex_set]
  have hstep : matchPartitionStep r.pre_middlewares.length r.routes.length
        r.post_middlewares.length r.scoped_data_maps.length
      = matchPartitionStep (r.pre_middlewares.map PreMiddleware.regex).length
          (r.routes.map Route.regex).length
          (r.post_middlewares.map PostMiddleware.regex).length
          (r.scoped_data_maps.map ScopedDataMap.regex).length := by
    simp
  rw [hstep]
  rw [show r.regexSetPatterns
      = r.pre_middlewares.map PreMiddleware.regex ++ r.routes.map Route.regex
        ++ r.post_middlewares.map PostMiddleware.regex
        ++ r.scoped_data_maps.map ScopedDataMap.regex from rfl]
  rw [matches_partition_general]
  simp only [List.length_map, Prod.mk.injEq]
  refine ⟨?_, ?_, ?_, ?_⟩
  · apply List.filter_congr
    intro i hi
    rw [getD_map_of_lt _ _ _ _ PreMiddleware.dummy (List.mem_range.mp hi)]
  · apply List.filter_congr
    intro i hi
    rw [getD_map_of_lt _ _ _ _ Route.dummy (List.mem_range.mp hi)]
  · apply List.filter_congr
    intro i hi
    rw [getD_map_of_lt _ _ _ _ PostMiddleware.dummy (List.mem_range.mp hi)]
  · apply List.filter_congr
    intro i hi
    rw [getD_map_of_lt _ _ _ _ ScopedDataMap.dummy (List.mem_range.mp hi)]

/-- C1: for every finalized router, the combined `RegexSet` is built over the
concatenation of pre-middleware regexes, route regexes, post-middleware
regexes, and scoped-data-map regexes in that exact order; and for every
request path the `RegexSet` hit indices are partitioned back into four lists
by the contiguous ranges `[0, |pre|)`, `[|pre|, |pre|+|routes|)`, and so on —
each resulting list being exactly the ascending (registration-order) list of
indices of the matching participants of its class. -/
theorem c1_regexset_order_and_partition (r : Router) (target : Str) :
    (r.regexSetPatterns
      = r.pre_middlewares.map PreMiddleware.regex ++ r.routes.map Route.regex
        ++ r.post_middlewares.map PostMiddleware.regex
        ++ r.scoped_data_maps.map ScopedDataMap.regex) ∧
    r.match_regex_set target =
      ((List.range r.pre_middlewares.length).filter
          (fun i => exactMatchB (r.pre_middlewares.getD i PreMiddleware.dummy).regex target),
       (List.range r.routes.length).filter
          (fun i => exactMatchB (r.routes.getD i Route.dummy).regex target),
       (List.range r.post_middlewares.length).filter
          (fun i => exactMatchB (r.post_middlewares.getD i PostMiddleware.dummy).regex target),
       (List.range r.scoped_data_maps.length).filter
          (fun i => exactMatchB (r.scoped_data_maps.getD i ScopedDataMap.dummy).regex target)) :=
  ⟨rfl, match_regex_set_spec r target⟩

theorem route_scope_depth_of_eq_find (r : Router) (m : Method) (idxs : List Nat) :
    r.route_scope_depth_of idxs m
      = (idxs.find? (fun i => (r.routes.getD i Route.dummy).is_match_method m
            && decide ((r.routes.getD i Route.dummy).path ≠ str "/*"))).map
          (fun i => (r.routes.getD i Route.dummy).scope_depth) := by
  induction idxs with
  | nil => rfl
  | cons i rest ih =>
    rw [Router.route_scope_depth_of]
    by_cases hc : (r.routes.getD i Route.dummy).is_match_method m = true
        ∧ (r.routes.getD i Route.dummy).path ≠ str "/*"
    · rw [if_pos hc]
      rw [List.find?_cons_of_pos _ (by
        simp only [Bool.and_eq_true, decide_eq_true_eq]
        exact ⟨hc.1, hc.2⟩)]
      rfl
    · rw [if_neg hc]
      rw [List.find?_cons_of_neg _ (by simpa using hc)]
      exact ih

theorem execute_pre_middleware_all_ok (r : Router) (depth? : Option Nat)
    (info : Option RequestInfo) :
    ∀ (idxs : List Nat) (req : Request),
      (∀ i ∈ idxs, ∀ q, ∃ q2,
        (r.pre_middlewares.getD i PreMiddleware.dummy).handler q = Except.ok q2) →
      ∃ req2, r.execute_pre_middleware idxs depth? info req
        = (.ok (.inl req2), idxs.filter (fun i =>
            decide (depth?.isNone = true
              ∨ (r.pre_middlewares.getD i PreMiddleware.dummy).scope_depth ≤ depth?.getD 0))) := by
  intro idxs
  induction idxs with
  | nil =>
    intro req hok
    exact ⟨req, rfl⟩
  | cons i rest ih =>
    intro req hok
    rw [Router.execute_pre_middleware]
    by_cases hg : depth?.isNone = true
        ∨ (r.pre_middlewares.getD i PreMiddleware.dummy).scope_depth ≤ depth?.getD 0
    · rw [if_pos hg]
      obtain ⟨req2, hh⟩ := hok i (by simp) req
      obtain ⟨req3, hrec⟩ := ih req2 (fun j hj q => hok j (by simp [hj]) q)
      refine ⟨req3, ?_⟩
      simp only [hh, hrec]
      rw [List.filter_cons, if_pos (by simpa using hg)]
    · rw [if_neg hg]
      obtain ⟨req3, hrec⟩ := ih req (fun j hj q => hok j (by simp [hj]) q)
      refine ⟨req3, ?_⟩
      simp only [hrec]
      rw [List.filter_cons, if_neg (by simpa using hg)]

theorem execute_post_middleware_all_ok (r : Router) (depth? : Option Nat)
    (info : Option RequestInfo) :
    ∀ (idxs : List Nat) (res : Response),
      (∀ i ∈ idxs, ∀ rs, ∃ rs2,
        (r.post_middlewares.getD i PostMiddleware.dummy).process rs info = Except.ok rs2) →
      ∃ res2, r.execute_post_middleware idxs depth? info res
        = (.ok res2, idxs.filter (fun i =>
            decide (depth?.isNone = true
              ∨ (r.post_middlewares.getD i PostMiddleware.dummy).scope_depth ≤ depth?.getD 0))) := by
  intro idxs
  induction idxs with
  | nil =>
    intro res hok
    exact ⟨res, rfl⟩
  | cons i rest ih =>
    intro res hok
    rw [Router.execute_post_middleware]
    by_cases hg : depth?.isNone = true
        ∨ (r.post_middlewares.getD i PostMiddleware.dummy).scope_depth ≤ depth?.getD 0
    · rw [if_pos hg]
      obtain ⟨res2, hh⟩ := hok i (by simp) res
      obtain ⟨res3, hrec⟩ := ih res2 (fun j hj rs => hok j (by simp [hj]) rs)
      refine ⟨res3, ?_⟩
      simp only [hh, hrec]
      rw [List.filter_cons, if_pos (by simpa using hg)]
    · rw [if_neg hg]
      obtain ⟨res3, hrec⟩ := ih res (fun j hj rs => hok j (by simp [hj]) rs)
      refine ⟨res3, ?_⟩
      simp only [hrec]
      rw [List.filter_cons, if_neg (by simpa using hg)]

/-- C2: for every request, the chosen scope depth is the depth of the first
matched route (in registration order) whose method matches and whose path is
not `/*` (undefined if there is none); and — in a run where no participant
fails and a response is produced — a matched pre-middleware or
post-middleware is executed if and only if the chosen depth is undefined or
the middleware's scope depth is less than or equal to the chosen depth
(the executed indices are exactly the depth-gate filter of the matched
indices, in order). -/
theorem c2_chosen_depth_and_gating (r : Router) (target : Str) (req : Request)
    (info : Option RequestInfo)
    (hpre : ∀ m ∈ r.pre_middlewares, ∀ q, ∃ q2, m.handler q = Except.ok q2)
    (hpost : ∀ m ∈ r.post_middlewares, ∀ rs info2, ∃ rs2, m.process rs info2 = Except.ok rs2)
    (hres : ∃ resp, (r.process target req info).result = Except.ok resp) :
    (r.route_scope_depth_of (r.match_regex_set target).2.1 req.method
      = (((r.match_regex_set target).2.1).find? (fun i =>
          (r.routes.getD i Route.dummy).is_match_method req.method
            && decide ((r.routes.getD i Route.dummy).path ≠ str "/*"))).map
          (fun i => (r.routes.getD i Route.dummy).scope_depth)) ∧
    ((r.process target req info).executedPre
      = (r.match_regex_set target).1.filter (fun i =>
          decide ((r.route_scope_depth_of (r.match_regex_set target).2.1 req.method).isNone = true
            ∨ (r.pre_middlewares.getD i PreMiddleware.dummy).scope_depth
                ≤ (r.route_scope_depth_of (r.match_regex_set target).2.1 req.method).getD 0))) ∧
    ((r.process target req info).executedPost
      = (r.match_regex_set target).2.2.1.filter (fun i =>
          decide ((r.route_scope_depth_of (r.match_regex_set target).2.1 req.method).isNone = true
            ∨ (r.post_middlewares.getD i PostMiddleware.dummy).scope_depth
                ≤ (r.route_scope_depth_of (r.match_regex_set target).2.1 req.method).getD 0))) := by
  refine ⟨route_scope_depth_of_eq_find r req.method _, ?_⟩
  have hb1 : ∀ i ∈ (r.match_regex_set target).1, i < r.pre_middlewares.length := by
    rw [match_regex_set_spec]
    intro i hi
    exact mem_range_filter hi
  have hb3 : ∀ i ∈ (r.match_regex_set target).2.2.1, i < r.post_middlewares.length := by
    rw [match_regex_set_spec]
    intro i hi
    exact mem_range_filter hi
  have hpre2 : ∀ i ∈ (r.match_regex_set target).1, ∀ q, ∃ q2,
      (r.pre_middlewares.getD i PreMiddleware.dummy).handler q = Except.ok q2 := by
    intro i hi q
    have hlt := hb1 i hi
    rw [List.getD_eq_getElem _ _ hlt]
    exact hpre _ (List.getElem_mem _) q
  have hpost2 : ∀ i ∈ (r.match_regex_set target).2.2.1, ∀ rs, ∃ rs2,
      (r.post_middlewares.getD i PostMiddleware.dummy).process rs info = Except.ok rs2 := by
    intro i hi rs
    have hlt := hb3 i hi
    rw [List.getD_eq_getElem _ _ hlt]
    exact hpost _ (List.getElem_mem _) rs info
  obtain ⟨req2, hpreEq⟩ := execute_pre_middleware_all_ok r
    (r.route_scope_depth_of (r.match_regex_set target).2.1 req.method) info
    (r.match_regex_set target).1 req hpre2
  simp only [Router.process] at hres ⊢
  simp only [hpreEq] at hres ⊢
  rcases hrp : r.route_phase (r.match_regex_set target).2.1 info req2 with ⟨ropt, ri⟩
  rcases ropt with _ | exc
  · rw [hrp] at hres
    simp at hres
  · rcases exc with e | resp
    · rw [hrp] at hres
      simp at hres
    · obtain ⟨res2, hpostEq⟩ := execute_post_middleware_all_ok r
        (r.route_scope_depth_of (r.match_regex_set target).2.1 req.method) info
        (r.match_regex_set target).2.2.1 resp hpost2
      simp only [hpostEq]
      exact ⟨trivial, trivial⟩

/-- Witness for C2 at `c2_router`, target `/`, a GET request: all handlers
succeed and a response is produced. -/
theorem c2_chosen_depth_and_gating_witness :
    (c2_router.route_scope_depth_of (c2_router.match_regex_set (str "/")).2.1 Method.GET
      = (((c2_router.match_regex_set (str "/")).2.1).find? (fun i =>
          (c2_router.routes.getD i Route.dummy).is_match_method Method.GET
            && decide ((c2_router.routes.getD i Route.dummy).path ≠ str "/*"))).map
          (fun i => (c2_router.routes.getD i Route.dummy).scope_depth)) ∧
    ((c2_router.process (str "/") { method := .GET, marks := [] } none).executedPre
      = (c2_router.match_regex_set (str "/")).1.filter (fun i =>
          decide ((c2_router.route_scope_depth_of
              (c2_router.match_regex_set (str "/")).2.1 Method.GET).isNone = true
            ∨ (c2_router.pre_middlewares.getD i PreMiddleware.dummy).scope_depth
                ≤ (c2_router.route_scope_depth_of
                    (c2_router.match_regex_set (str "/")).2.1 Method.GET).getD 0))) ∧
    ((c2_router.process (str "/") { method := .GET, marks := [] } none).executedPost
      = (c2_router.match_regex_set (str "/")).2.2.1.filter (fun i =>
          decide ((c2_router.route_scope_depth_of
              (c2_router.match_regex_set (str "/")).2.1 Method.GET).isNone = true
            ∨ (c2_router.post_middlewares.getD i PostMiddleware.dummy).scope_depth
                ≤ (c2_router.route_scope_depth_of
                    (c2_router.match_regex_set (str "/")).2.1 Method.GET).getD 0))) :=
  c2_chosen_depth_and_gating c2_router (str "/") { method := .GET, marks := [] } none
    (by
      intro m hm q
      rw [show c2_router.pre_middlewares = [c2_pre] from rfl, List.mem_singleton] at hm
      subst hm
      exact ⟨q, rfl⟩)
    (by
      intro m hm rs info2
      rw [show c2_router.post_middlewares = [c5_mark_post] from rfl, List.mem_singleton] at hm
      subst hm
      exact ⟨insertHeader (str "m2") (str "yes") rs, by cases info2 <;> rfl⟩)
    ⟨insertHeader (str "m2") (str "yes") { status := 200, headers := [], body := str "ok" }, rfl⟩

end Routerify
